import Mathlib

/-!
Verification of `src/core/dev/qp_mgr.cpp` (queue-pair manager of libxlio).

The definitions below are a shallow embedding of the functions of that file:
machine integers become `Nat`/`Int`, hardware calls become explicit oracle
parameters (success flag / bad-offset option / returned completion ids), and
member state becomes explicit record state.  Helpers that live only in the
header `qp_mgr.h` (not part of the sources) are modelled from the spec and
marked as such in their doc comments.
-/

/-! ## Capability negotiation (`qp_mgr::configure`) -/

/-- Macro `ALIGN_WR_DOWN(_num_wr_) = max(32, (_num_wr_) & ~0xf)` (qp_mgr.cpp line 58).
For naturals, clearing the low four bits is `n - n % 16`. -/
def ALIGN_WR_DOWN (num_wr : Nat) : Nat :=
  max 32 (num_wr - num_wr % 16)

/-- Spec-side formula `max(32, floor16(x))` with `floor16` written as a
truncating division, used to compare the spec's words with `ALIGN_WR_DOWN`. -/
def specFloor16Max32 (x : Nat) : Nat :=
  max 32 (16 * (x / 16))

/-- The Rx work-request clamp of `qp_mgr::configure` (lines 182-188):
`m_max_qp_wr = ALIGN_WR_DOWN(device_attr->max_qp_wr - 1)`, and
`m_rx_num_wr` is lowered to `m_max_qp_wr` (with a warning) when it exceeds it.
Returns the negotiated count together with the warning flag. -/
def configure_rx_num_wr (device_max_qp_wr : Nat) (rx_num_wr : Nat) : Nat × Bool :=
  let m_max_qp_wr := ALIGN_WR_DOWN (device_max_qp_wr - 1)
  if rx_num_wr > m_max_qp_wr then (m_max_qp_wr, true) else (rx_num_wr, false)

/-- Record `ibv_qp_cap`: the five negotiated capability fields. -/
structure ibv_qp_cap where
  max_send_wr : Nat
  max_recv_wr : Nat
  max_send_sge : Nat
  max_recv_sge : Nat
  max_inline_data : Nat
deriving DecidableEq

/-- Pointwise `≤` on capability sets. -/
def capLe (a b : ibv_qp_cap) : Prop :=
  a.max_send_wr ≤ b.max_send_wr ∧ a.max_recv_wr ≤ b.max_recv_wr ∧
    a.max_send_sge ≤ b.max_send_sge ∧ a.max_recv_sge ≤ b.max_recv_sge ∧
    a.max_inline_data ≤ b.max_inline_data

instance (a b : ibv_qp_cap) : Decidable (capLe a b) := by
  unfold capLe
  infer_instance

/-- The post-creation clamp of `qp_mgr::configure` (lines 270-274): after
`ibv_query_qp` reports the actually granted capabilities, every stored field
becomes `min(actual, previously negotiated)`. -/
def configure_clamp_caps (actual negotiated : ibv_qp_cap) : ibv_qp_cap where
  max_send_wr := min actual.max_send_wr negotiated.max_send_wr
  max_recv_wr := min actual.max_recv_wr negotiated.max_recv_wr
  max_send_sge := min actual.max_send_sge negotiated.max_send_sge
  max_recv_sge := min actual.max_recv_sge negotiated.max_recv_sge
  max_inline_data := min actual.max_inline_data negotiated.max_inline_data

/-! ## Rate-limit management (`is_ratelimit_change`, `modify_qp_ratelimit`) -/

/-- Record `xlio_rate_limit_t`: the three compared fields. -/
structure xlio_rate_limit_t where
  rate : Nat
  max_burst_sz : Nat
  typical_pkt_sz : Nat
deriving DecidableEq

/-- Bit flag for a rate change.  The numeric values of the three flags are
declared outside this file; they are modelled as the three distinct low bits. -/
def RL_RATE : Nat := 1

/-- Bit flag for a burst-size change. -/
def RL_BURST_SIZE : Nat := 2

/-- Bit flag for a typical-packet-size change. -/
def RL_PKT_SIZE : Nat := 4

/-- Function `qp_mgr::is_ratelimit_change` (lines 688-703): ors together one flag per
field on which the candidate differs from the stored configuration. -/
def is_ratelimit_change (m_rate_limit rate_limit : xlio_rate_limit_t) : Nat :=
  (if m_rate_limit.rate ≠ rate_limit.rate then RL_RATE else 0) |||
    (if m_rate_limit.max_burst_sz ≠ rate_limit.max_burst_sz then RL_BURST_SIZE else 0) |||
    (if m_rate_limit.typical_pkt_sz ≠ rate_limit.typical_pkt_sz then RL_PKT_SIZE else 0)

/-- Function `qp_mgr::modify_qp_ratelimit` (lines 705-717).  `hwRet` is the result of
the hardware call `priv_ibv_modify_qp_ratelimit`; on nonzero the stored
configuration is untouched and `-1` returned, on zero the stored configuration
is replaced wholesale by the candidate and `0` returned.
Result: (new stored configuration, return value). -/
def modify_qp_ratelimit (hwRet : Int) (m_rate_limit rate_limit : xlio_rate_limit_t) :
    xlio_rate_limit_t × Int :=
  if hwRet ≠ 0 then (m_rate_limit, -1) else (rate_limit, 0)

/-! ## Receive-buffer batching (`qp_mgr::post_recv_buffer`) -/

/-- The `next` links that `configure` (lines 308-314) pre-writes into
`m_ibv_rx_wr_array`: slot `i` points to slot `i+1`, the last slot to nothing
(`wr_idx < n - 1 ? &array[wr_idx + 1] : NULL`). -/
def configureNext (n : Nat) (i : Nat) : Option Nat :=
  if i < n - 1 then some (i + 1) else none

/-- Length of the descriptor chain starting at slot `i`, following the `next`
links, with explicit fuel (the chain a hardware post consumes). -/
def chainLenFrom (next : Nat → Option Nat) : Nat → Nat → Nat
  | 0, _ => 0
  | fuel + 1, i =>
    match next i with
    | none => 1
    | some j => 1 + chainLenFrom next fuel j

/-- State of the receive batch owned by `qp_mgr`:
`batchSize` is `m_n_sysvar_rx_num_wr_to_post_recv`, `wr_id` the `wr_id` fields
of `m_ibv_rx_wr_array`, `wrNext` its `next` links, and `posts` the log of
hardware posts performed, as pairs (head slot, chain length). -/
structure RxBatchState where
  batchSize : Nat
  m_curr_rx_wr : Nat
  m_last_posted_rx_wr_id : Nat
  wr_id : Nat → Nat
  wrNext : Nat → Option Nat
  posts : List (Nat × Nat)

/-- The batch state right after `configure`: index 0, marker 0, pre-linked
chain, no posts yet. -/
def freshRxState (n : Nat) : RxBatchState where
  batchSize := n
  m_curr_rx_wr := 0
  m_last_posted_rx_wr_id := 0
  wr_id := fun _ => 0
  wrNext := configureNext n
  posts := []

/-- Function `qp_mgr::post_recv_buffer` (lines 486-532).  `desc` is the descriptor's
identity (the `uintptr_t` of the `mem_buf_desc_t`); `hwBad` is the hardware
oracle for `ibv_post_recv`: `none` on success, `some off` when the post fails
with `bad_wr` at slot `off`.  Writes the descriptor into the current slot;
when the batch fills it records the last posted id, resets the index, and
posts the chain headed at slot 0, repairing the broken link and re-raising on
failure (second component `some off`); otherwise it just advances the index. -/
def post_recv_buffer (hwBad : Option Nat) (desc : Nat) (s : RxBatchState) :
    RxBatchState × Option Nat :=
  if s.m_curr_rx_wr = s.batchSize - 1 then
    match hwBad with
    | none =>
      ({ s with
          wr_id := fun i => if i = s.m_curr_rx_wr then desc else s.wr_id i
          m_last_posted_rx_wr_id := desc
          m_curr_rx_wr := 0
          posts := s.posts ++ [(0, chainLenFrom s.wrNext s.batchSize 0)] }, none)
    | some off =>
      ({ s with
          wr_id := fun i => if i = s.m_curr_rx_wr then desc else s.wr_id i
          m_last_posted_rx_wr_id := desc
          m_curr_rx_wr := 0
          wrNext := fun i =>
            if off ≠ s.batchSize - 1 ∧ i = off then some (off + 1) else s.wrNext i }, some off)
  else
    ({ s with
        wr_id := fun i => if i = s.m_curr_rx_wr then desc else s.wr_id i
        m_curr_rx_wr := s.m_curr_rx_wr + 1 }, none)

/-- A sequence of `post_recv_buffer` calls, all with a succeeding hardware. -/
def postManySucc (descs : List Nat) (s : RxBatchState) : RxBatchState :=
  descs.foldl (fun t d => (post_recv_buffer none d t).1) s

/-! ## Send-path signaling policy -/

/-- Modelled from the spec: `set_unsignaled_count` (header helper, not among
the sources) closes the unsignaled send list, marking the last work request as
signaled; with a threshold of `tx_num_wr_to_signal` sends it sets the count to
`tx_num_wr_to_signal - 1`. -/
def set_unsignaled_count (m_n_sysvar_tx_num_wr_to_signal : Nat) : Nat :=
  m_n_sysvar_tx_num_wr_to_signal - 1

/-- Modelled from the spec: `is_signal_requested_for_last_wqe` (header helper,
not among the sources) — the last posted work request carried a completion
signal exactly when the count sits at its post-signal value. -/
def is_signal_requested_for_last_wqe (m_n_sysvar_tx_num_wr_to_signal m_n_unsignaled_count : Nat) :
    Bool :=
  m_n_unsignaled_count == m_n_sysvar_tx_num_wr_to_signal - 1

/-- One `qp_mgr::send` call's signaling behaviour, faithful to the source:
line 614 computes `request_comp` from the buffer's ZCOPY flag alone
(`bool request_comp = (p_mem_buf_desc->m_flags & mem_buf_desc_t::ZCOPY)`),
and no statement of the visible send path (`send`, `send_to_wire`) writes
`m_n_unsignaled_count`, so the counter after the call equals the counter
before it.  This contradicts the policy documented in the comment block
directly above line 614 ("First call of send() should do completion...").
Result: (completion signal requested for this work request, counter after). -/
def send_signaling (zcopy : Bool) (m_n_unsignaled_count : Nat) : Bool × Nat :=
  (zcopy, m_n_unsignaled_count)

/-- Function `qp_mgr::send` (lines 600-635), observable control flow given the oracles:
`post_ok` is the outcome of `send_to_wire`/`xlio_ibv_post_send`, `pollRet` the
result of the synchronous `poll_and_process_element_tx` pass.
`request_comp` is the zero-copy flag of the buffer (line 614).
Result fields record the return value, whether the Tx completion poll was
attempted, and whether the poll's error path (only a log) was taken. -/
structure SendResult where
  retval : Int
  pollAttempted : Bool
  loggedPollError : Bool
deriving DecidableEq

/-- See `SendResult`.  `sigReqLastWqe` is the value of the header helper
`is_signal_requested_for_last_wqe()` at the moment of the call. -/
def qp_send (post_ok zcopy sigReqLastWqe : Bool) (pollRet : Int) : SendResult :=
  let request_comp := zcopy
  if !post_ok then ⟨-1, false, false⟩
  else if request_comp || sigReqLastWqe then ⟨0, true, decide (pollRet < 0)⟩
  else ⟨0, false, false⟩

/-- Function `qp_mgr::trigger_completion_for_all_sent_packets` (lines 424-479), run by
`down()`: when the last work request already carried a signal nothing happens;
otherwise a buffer is requested (`bufAvailable` oracle for
`mem_buf_tx_get`) — without one the failure is only logged and nothing is
posted; with one, a single minimal signaled dummy send closes the unsignaled
list (`set_unsignaled_count`).
Result: (dummy send posted?, new unsignaled counter). -/
def trigger_completion_for_all_sent_packets (m_n_sysvar_tx_num_wr_to_signal : Nat)
    (bufAvailable : Bool) (m_n_unsignaled_count : Nat) : Bool × Nat :=
  if is_signal_requested_for_last_wqe m_n_sysvar_tx_num_wr_to_signal m_n_unsignaled_count then
    (false, m_n_unsignaled_count)
  else if !bufAvailable then (false, m_n_unsignaled_count)
  else (true, set_unsignaled_count m_n_sysvar_tx_num_wr_to_signal)

/-! ## Ethernet ready-state transition (`qp_mgr_eth::modify_qp_to_ready_state`) -/

/-- Enumeration `ibv_qp_state` (verbs QP lifecycle states). -/
inductive ibv_qp_state where
  | IBV_QPS_RESET
  | IBV_QPS_INIT
  | IBV_QPS_RTR
  | IBV_QPS_RTS
  | IBV_QPS_SQD
  | IBV_QPS_SQE
  | IBV_QPS_ERR
deriving DecidableEq

/-- A state strictly past the init stage of the lifecycle. -/
def pastInit : ibv_qp_state → Bool
  | ibv_qp_state.IBV_QPS_RTR => true
  | ibv_qp_state.IBV_QPS_RTS => true
  | ibv_qp_state.IBV_QPS_SQD => true
  | ibv_qp_state.IBV_QPS_SQE => true
  | _ => false

/-- Outcome of `qp_mgr_eth::modify_qp_to_ready_state`: whether the defensive
reset/error→init step ran, and the final state. -/
structure ReadyTransition where
  toInitApplied : Bool
  finalState : ibv_qp_state
deriving DecidableEq

/-- Function `qp_mgr_eth::modify_qp_to_ready_state` (lines 637-656): queries the state;
unless it is exactly `IBV_QPS_INIT` it re-applies
`priv_ibv_modify_qp_from_err_to_init_raw`; then it applies
`priv_ibv_modify_qp_from_init_to_rts`.  The two transition helpers are outside
the sources; modelled from the spec as moving the QP to init resp. ready
(RTS), success assumed (failure is process-terminating). -/
def modify_qp_to_ready_state (qp_state : ibv_qp_state) : ReadyTransition :=
  if qp_state ≠ ibv_qp_state.IBV_QPS_INIT then
    { toInitApplied := true, finalState := ibv_qp_state.IBV_QPS_RTS }
  else
    { toInitApplied := false, finalState := ibv_qp_state.IBV_QPS_RTS }

/-! ## Rx drain loop (`qp_mgr::release_rx_buffers`) -/

/-- What the loop of `release_rx_buffers` observes at iteration `k`:
`polledId` is the id written by the `drain_and_proccess` pass of the body,
the four flags are the values of `errno == EIO`, `is_removed()`,
`is_rq_empty()` and `g_b_exit` at the `k`-th loop-condition check. -/
structure RxObs where
  polledId : Nat
  removed : Bool
  rqEmpty : Bool
  gExit : Bool
  eioFlag : Bool

/-- Value of `last_polled_rx_wr_id` as seen by the `k`-th condition check: initialised
to 0, afterwards the id delivered by the previous body pass. -/
def polledBefore (env : Nat → RxObs) : Nat → Nat
  | 0 => 0
  | k + 1 => (env k).polledId

/-- The loop condition of `release_rx_buffers` (line 386): continue while the
CQ exists, the ids differ, no EIO, device not removed, receive queue not
empty, and no global shutdown. -/
def drainContinue (cqPresent : Bool) (env : Nat → RxObs) (lastPosted : Nat) (k : Nat) : Bool :=
  cqPresent && !(polledBefore env k == lastPosted) && !(env k).eioFlag &&
    !(env k).removed && !(env k).rqEmpty && !(env k).gExit

/-- Number of body passes the drain loop makes: starting at check `k`, with
`fuel` remaining checks, `some j` means the condition first failed at check
`j` (so exactly `j` bodies ran); `none` means the fuel was exhausted with the
condition still holding. -/
def drainExitAt (cqPresent : Bool) (env : Nat → RxObs) (lastPosted : Nat) :
    Nat → Nat → Option Nat
  | 0, _ => none
  | fuel + 1, k =>
    if drainContinue cqPresent env lastPosted k then
      drainExitAt cqPresent env lastPosted fuel (k + 1)
    else some k

/-- Result of `qp_mgr::release_rx_buffers` (lines 365-409): how many drain
passes ran and the value of `m_last_posted_rx_wr_id` on return (line 406
clears it unconditionally).  `none` if the loop had not finished within
`fuel` checks. -/
def release_rx_buffers (cqPresent : Bool) (env : Nat → RxObs) (lastPosted fuel : Nat) :
    Option (Nat × Nat) :=
  (drainExitAt cqPresent env lastPosted fuel 0).map (fun k => (k, 0))

/-! ## Theorems -/

/-- **C2.** In `configure`, a requested Rx work-request count above
`max(32, floor16(device_max_qp_wr − 1))` is clamped to exactly that value with
a warning; a request at or below it is left unchanged and unwarned. -/
theorem configure_rx_num_wr_clamp (dmax req : Nat) (hdev : 1 ≤ dmax) :
    (req > specFloor16Max32 (dmax - 1) →
      configure_rx_num_wr dmax req = (specFloor16Max32 (dmax - 1), true)) ∧
    (req ≤ specFloor16Max32 (dmax - 1) →
      configure_rx_num_wr dmax req = (req, false)) := by
  have key : ALIGN_WR_DOWN (dmax - 1) = specFloor16Max32 (dmax - 1) := by
    unfold ALIGN_WR_DOWN specFloor16Max32
    have h16 : 16 * ((dmax - 1) / 16) = (dmax - 1) - (dmax - 1) % 16 := by
      omega
    rw [h16]
  constructor
  · intro h
    unfold configure_rx_num_wr
    rw [key]
    simp [h]
  · intro h
    unfold configure_rx_num_wr
    rw [key]
    simp only [gt_iff_lt, ite_eq_right_iff]
    intro hlt
    omega

/-- Witness for `configure_rx_num_wr_clamp` at `dmax = 100`:
`max(32, floor16(99)) = 96`, so a request of 500 is clamped to 96 with a
warning while a request of 40 is kept. -/
theorem configure_rx_num_wr_clamp_witness :
    configure_rx_num_wr 100 500 = (96, true) ∧ configure_rx_num_wr 100 40 = (40, false) := by
  refine ⟨?_, ?_⟩
  · have h := (configure_rx_num_wr_clamp 100 500 (by decide)).1 (by decide)
    have hv : specFloor16Max32 99 = 96 := by decide
    rw [h, hv]
  · exact (configure_rx_num_wr_clamp 100 40 (by decide)).2 (by decide)

/-- **C3.** After `configure` re-queries the granted capabilities, every stored
field equals `min(actual, previously negotiated)`; the result never exceeds the
previously negotiated value, and if the negotiated values were at most the
requested ones then the final values still are: actual-clamped ≤ negotiated ≤
requested. -/
theorem configure_clamp_caps_spec (actual neg req : ibv_qp_cap) (hreq : capLe neg req) :
    configure_clamp_caps actual neg =
        ibv_qp_cap.mk (min actual.max_send_wr neg.max_send_wr)
          (min actual.max_recv_wr neg.max_recv_wr) (min actual.max_send_sge neg.max_send_sge)
          (min actual.max_recv_sge neg.max_recv_sge)
          (min actual.max_inline_data neg.max_inline_data) ∧
      capLe (configure_clamp_caps actual neg) neg ∧
      capLe (configure_clamp_caps actual neg) req := by
  obtain ⟨h1, h2, h3, h4, h5⟩ := hreq
  refine ⟨rfl, ⟨?_, ?_, ?_, ?_, ?_⟩, ⟨?_, ?_, ?_, ?_, ?_⟩⟩ <;>
    simp [configure_clamp_caps] <;> omega

/-- Witness for `configure_clamp_caps_spec`: requested (8,8,4,4,64) negotiated
down to (6,8,4,4,32) and actually granted (7,5,4,6,16). -/
theorem configure_clamp_caps_spec_witness :
    configure_clamp_caps (ibv_qp_cap.mk 7 5 4 6 16) (ibv_qp_cap.mk 6 8 4 4 32) =
        ibv_qp_cap.mk 6 5 4 4 16 ∧
      capLe (configure_clamp_caps (ibv_qp_cap.mk 7 5 4 6 16) (ibv_qp_cap.mk 6 8 4 4 32))
        (ibv_qp_cap.mk 8 8 4 4 64) := by
  have h :=
    configure_clamp_caps_spec (ibv_qp_cap.mk 7 5 4 6 16) (ibv_qp_cap.mk 6 8 4 4 32)
      (ibv_qp_cap.mk 8 8 4 4 64) (by decide)
  refine ⟨?_, h.2.2⟩
  rw [h.1]
  decide

/-- **C7.** `is_ratelimit_change` sets the bits `RL_RATE`, `RL_BURST_SIZE`,
`RL_PKT_SIZE` exactly for the fields on which the candidate differs from the
stored configuration, and `modify_qp_ratelimit` on hardware success replaces
the stored configuration wholesale (returning 0) while on hardware failure it
leaves it unchanged (returning -1). -/
theorem ratelimit_change_spec (s c : xlio_rate_limit_t) (hwRet : Int) :
    (is_ratelimit_change s c &&& RL_RATE ≠ 0 ↔ s.rate ≠ c.rate) ∧
      (is_ratelimit_change s c &&& RL_BURST_SIZE ≠ 0 ↔ s.max_burst_sz ≠ c.max_burst_sz) ∧
      (is_ratelimit_change s c &&& RL_PKT_SIZE ≠ 0 ↔ s.typical_pkt_sz ≠ c.typical_pkt_sz) ∧
      (hwRet = 0 → modify_qp_ratelimit hwRet s c = (c, 0)) ∧
      (hwRet ≠ 0 → modify_qp_ratelimit hwRet s c = (s, -1)) := by
  refine ⟨?_, ?_, ?_, ?_, ?_⟩
  · by_cases h1 : s.rate = c.rate <;> by_cases h2 : s.max_burst_sz = c.max_burst_sz <;>
      by_cases h3 : s.typical_pkt_sz = c.typical_pkt_sz <;>
      simp [is_ratelimit_change, h1, h2, h3, RL_RATE, RL_BURST_SIZE, RL_PKT_SIZE]
  · by_cases h1 : s.rate = c.rate <;> by_cases h2 : s.max_burst_sz = c.max_burst_sz <;>
      by_cases h3 : s.typical_pkt_sz = c.typical_pkt_sz <;>
      simp [is_ratelimit_change, h1, h2, h3, RL_RATE, RL_BURST_SIZE, RL_PKT_SIZE] <;> decide
  · by_cases h1 : s.rate = c.rate <;> by_cases h2 : s.max_burst_sz = c.max_burst_sz <;>
      by_cases h3 : s.typical_pkt_sz = c.typical_pkt_sz <;>
      simp [is_ratelimit_change, h1, h2, h3, RL_RATE, RL_BURST_SIZE, RL_PKT_SIZE] <;> decide
  · intro h
    simp [modify_qp_ratelimit, h]
  · intro h
    simp [modify_qp_ratelimit, h]

/-- Witness for `ratelimit_change_spec`, the spec's own example: stored
{rate=10, burst=5, pktsize=100}, candidate {rate=10, burst=7, pktsize=100} —
only the burst bit is flagged, and applying with hardware success makes the
stored configuration equal the candidate. -/
theorem ratelimit_change_spec_witness :
    (is_ratelimit_change (xlio_rate_limit_t.mk 10 5 100) (xlio_rate_limit_t.mk 10 7 100) &&&
          RL_BURST_SIZE ≠ 0 ↔ (5 : Nat) ≠ 7) ∧
      modify_qp_ratelimit 0 (xlio_rate_limit_t.mk 10 5 100) (xlio_rate_limit_t.mk 10 7 100) =
        (xlio_rate_limit_t.mk 10 7 100, 0) := by
  have h := ratelimit_change_spec (xlio_rate_limit_t.mk 10 5 100) (xlio_rate_limit_t.mk 10 7 100) 0
  exact ⟨h.2.1, h.2.2.2.1 rfl⟩

/-- Helper: the chain starting at slot `i` has length `d` whenever `i + d = n`
and all links from slot `i` on agree with the `configure` pre-linking. -/
theorem chainLenFrom_configureNext (n : Nat) (next : Nat → Option Nat) :
    ∀ d i, 0 < d → i + d = n → (∀ j, i ≤ j → next j = configureNext n j) →
      chainLenFrom next d i = d := by
  intro d
  induction d with
  | zero => intro i h; omega
  | succ d ih =>
    intro i _ hsum hagree
    by_cases hd : d = 0
    · subst hd
      have hni : next i = none := by
        rw [hagree i le_rfl]
        unfold configureNext
        have hge : ¬i < n - 1 := by omega
        simp [hge]
      simp [chainLenFrom, hni]
    · have hlt : i < n - 1 := by omega
      have hni : next i = some (i + 1) := by
        rw [hagree i le_rfl]
        unfold configureNext
        simp [hlt]
      have hrec := ih (i + 1) (by omega) (by omega) (fun j hj => hagree j (by omega))
      simp [chainLenFrom, hni, hrec]
      omega

/-- Helper: a run of succeeding posts folds over the descriptor list. -/
theorem postManySucc_append (a b : List Nat) (s : RxBatchState) :
    postManySucc (a ++ b) s = postManySucc b (postManySucc a s) := by
  simp [postManySucc, List.foldl_append]

/-- Helper: a call that does not fill the batch only advances the index. -/
theorem post_recv_buffer_adv (d : Nat) (s : RxBatchState)
    (h : s.m_curr_rx_wr ≠ s.batchSize - 1) :
    (post_recv_buffer none d s).1.m_curr_rx_wr = s.m_curr_rx_wr + 1 ∧
      (post_recv_buffer none d s).1.posts = s.posts ∧
      (post_recv_buffer none d s).1.m_last_posted_rx_wr_id = s.m_last_posted_rx_wr_id ∧
      (post_recv_buffer none d s).1.wrNext = s.wrNext ∧
      (post_recv_buffer none d s).1.batchSize = s.batchSize := by
  simp [post_recv_buffer, h]

/-- Helper: as long as the batch never fills, a run of posts only writes slots
and advances the index; no hardware post happens and the marker is untouched. -/
theorem postManySucc_under_batch (descs : List Nat) :
    ∀ s : RxBatchState, s.m_curr_rx_wr + descs.length < s.batchSize →
      (postManySucc descs s).m_curr_rx_wr = s.m_curr_rx_wr + descs.length ∧
        (postManySucc descs s).posts = s.posts ∧
        (postManySucc descs s).m_last_posted_rx_wr_id = s.m_last_posted_rx_wr_id ∧
        (postManySucc descs s).wrNext = s.wrNext ∧
        (postManySucc descs s).batchSize = s.batchSize := by
  induction descs with
  | nil => intro s _; simp [postManySucc]
  | cons d ds ih =>
    intro s h
    have hlen : (d :: ds).length = ds.length + 1 := by simp
    have hne : s.m_curr_rx_wr ≠ s.batchSize - 1 := by
      rw [hlen] at h
      omega
    have hstep := post_recv_buffer_adv d s hne
    have hcons : postManySucc (d :: ds) s = postManySucc ds (post_recv_buffer none d s).1 := rfl
    have hrec := ih (post_recv_buffer none d s).1 (by rw [hlen] at h; omega)
    rw [hcons]
    refine ⟨?_, ?_, ?_, ?_, ?_⟩
    · rw [hrec.1, hstep.1, hlen]; omega
    · rw [hrec.2.1, hstep.2.1]
    · rw [hrec.2.2.1, hstep.2.2.1]
    · rw [hrec.2.2.2.1, hstep.2.2.2.1]
    · rw [hrec.2.2.2.2, hstep.2.2.2.2]

/-- Helper: the call that fills the batch posts the chain headed at slot 0,
records the last descriptor and resets the index. -/
theorem post_recv_buffer_fills (d : Nat) (s : RxBatchState)
    (h : s.m_curr_rx_wr = s.batchSize - 1) :
    (post_recv_buffer none d s).1.posts =
        s.posts ++ [(0, chainLenFrom s.wrNext s.batchSize 0)] ∧
      (post_recv_buffer none d s).1.m_last_posted_rx_wr_id = d ∧
      (post_recv_buffer none d s).1.m_curr_rx_wr = 0 := by
  simp [post_recv_buffer, h]

/-- **C1.** From a freshly configured batch of capacity `n`, posting exactly
`n` descriptors triggers exactly one hardware post — of the chain headed at
slot 0 with length `n` — records the last descriptor's identity in
`m_last_posted_rx_wr_id` and resets `m_curr_rx_wr` to zero, while posting only
`n − 1` descriptors triggers zero hardware posts. -/
theorem post_recv_buffer_batch (n : Nat) (descs : List Nat) (hn : 1 ≤ n) :
    (descs.length = n →
      (postManySucc descs (freshRxState n)).posts = [(0, n)] ∧
        (postManySucc descs (freshRxState n)).m_last_posted_rx_wr_id = descs.getLastD 0 ∧
        (postManySucc descs (freshRxState n)).m_curr_rx_wr = 0) ∧
    (descs.length = n - 1 → (postManySucc descs (freshRxState n)).posts = []) := by
  constructor
  · intro hlen
    rcases List.eq_nil_or_concat descs with rfl | ⟨as, a, rfl⟩
    · simp at hlen
      omega
    · simp only [List.concat_eq_append] at hlen ⊢
      have hlen' : as.length = n - 1 := by
        simp at hlen
        omega
      have hpart := postManySucc_under_batch as (freshRxState n)
        (by simp [freshRxState, hlen']; omega)
      have hcurr : (postManySucc as (freshRxState n)).m_curr_rx_wr =
          (postManySucc as (freshRxState n)).batchSize - 1 := by
        rw [hpart.1, hpart.2.2.2.2]
        simp [freshRxState, hlen']
      have hfull := post_recv_buffer_fills a (postManySucc as (freshRxState n)) hcurr
      have hchain : chainLenFrom (postManySucc as (freshRxState n)).wrNext
          (postManySucc as (freshRxState n)).batchSize 0 = n := by
        rw [hpart.2.2.2.1, hpart.2.2.2.2]
        show chainLenFrom (configureNext n) n 0 = n
        exact chainLenFrom_configureNext n (configureNext n) n 0 (by omega) (by omega)
          (fun j _ => rfl)
      have hsingle : postManySucc (as ++ [a]) (freshRxState n) =
          (post_recv_buffer none a (postManySucc as (freshRxState n))).1 := by
        rw [postManySucc_append]
        rfl
      refine ⟨?_, ?_, ?_⟩
      · rw [hsingle, hfull.1, hpart.2.1, hchain]
        simp [freshRxState, hpart.2.2.2.2]
      · rw [hsingle, hfull.2.1]
        simp
      · rw [hsingle, hfull.2.2]
  · intro hlen
    exact (postManySucc_under_batch descs (freshRxState n)
      (by simp [freshRxState, hlen]; omega)).2.1

/-- Witness for `post_recv_buffer_batch` at capacity 2: posting `[5, 7]` logs
the single post `(0, 2)` and records id 7; posting `[5]` posts nothing. -/
theorem post_recv_buffer_batch_witness :
    (postManySucc [5, 7] (freshRxState 2)).posts = [(0, 2)] ∧
      (postManySucc [5, 7] (freshRxState 2)).m_last_posted_rx_wr_id = 7 ∧
      (postManySucc [5] (freshRxState 2)).posts = [] := by
  have h := post_recv_buffer_batch 2 [5, 7] (by decide)
  have h2 := post_recv_buffer_batch 2 [5] (by decide)
  refine ⟨(h.1 rfl).1, ?_, h2.2 rfl⟩
  have hlast := (h.1 rfl).2.1
  simpa using hlast

/-- **C8.** When the batched post fails at a reported offset `off` that is not
the last slot, `post_recv_buffer` restores the chain link at `off` (pointing
to slot `off + 1`) so the unposted remainder `off .. n-1` again forms a chain
of length `n − off`, and re-raises the failure to the caller. -/
theorem post_recv_buffer_failure_repair (n off d : Nat) (s : RxBatchState)
    (hsz : s.batchSize = n) (hcurr : s.m_curr_rx_wr = n - 1) (hoff : off < n - 1)
    (hlinks : ∀ j, j ≠ off → s.wrNext j = configureNext n j) :
    (post_recv_buffer (some off) d s).2 = some off ∧
      (post_recv_buffer (some off) d s).1.wrNext off = some (off + 1) ∧
      chainLenFrom (post_recv_buffer (some off) d s).1.wrNext (n - off) off = n - off := by
  have hfull : s.m_curr_rx_wr = s.batchSize - 1 := by rw [hsz, hcurr]
  have hne : off ≠ s.batchSize - 1 := by rw [hsz]; omega
  have hagree : ∀ j, off ≤ j → (post_recv_buffer (some off) d s).1.wrNext j =
      configureNext n j := by
    intro j _
    by_cases hj : j = off
    · subst hj
      simp [post_recv_buffer, hfull, hne]
      unfold configureNext
      simp [hoff]
    · simp [post_recv_buffer, hfull, hne, hj]
      exact hlinks j hj
  refine ⟨?_, ?_, ?_⟩
  · simp [post_recv_buffer, hfull]
  · simp [post_recv_buffer, hfull, hne]
  · exact chainLenFrom_configureNext n (post_recv_buffer (some off) d s).1.wrNext (n - off) off
      (by omega) (by omega) hagree

/-- Witness for `post_recv_buffer_failure_repair`: capacity 4, failure at
slot 1 — the call re-raises `some 1` and the remainder chain `1..3` has
length 3 again. -/
theorem post_recv_buffer_failure_repair_witness :
    (post_recv_buffer (some 1) 9 { freshRxState 4 with m_curr_rx_wr := 3 }).2 = some 1 ∧
      chainLenFrom
        (post_recv_buffer (some 1) 9 { freshRxState 4 with m_curr_rx_wr := 3 }).1.wrNext 3 1 =
        3 := by
  have h := post_recv_buffer_failure_repair 4 1 9 { freshRxState 4 with m_curr_rx_wr := 3 }
    rfl rfl (by decide) (fun j _ => rfl)
  exact ⟨h.1, h.2.2⟩

/-- **C4 (code bug).** The spec claims `send()` forces a completion signal on
the first send after creation and whenever the accumulated unsignaled count
reaches the threshold.  The code does not: per line 614 a non-zero-copy send
never requests a completion signal — in particular the very first send after
creation (counter 0) — and no send ever changes `m_n_unsignaled_count`, so
the accumulated count can never reach any threshold.  Only the zero-copy half
of the claim holds: a zero-copy buffer always requests a signal. -/
theorem send_signal_code_bug :
    (send_signaling false 0).1 = false ∧
      (∀ zcopy c, (send_signaling zcopy c).2 = c) ∧
      (∀ c, (send_signaling true c).1 = true) ∧
      (∀ c, (send_signaling false c).1 = false) :=
  ⟨rfl, fun _ _ => rfl, fun _ => rfl, fun _ => rfl⟩

/-- **C6 (code bug).** The spec claims the dummy-completion path of `down()`
does not run when the last outstanding send was zero-copy, since that send
already forced a signal.  On the code it runs anyway: a zero-copy send does
request a signal (line 614), but the visible send path never updates
`m_n_unsignaled_count`, so after one zero-copy send from a fresh manager the
counter still reads 0; with threshold 3 the helper
`is_signal_requested_for_last_wqe` then reads false and
`trigger_completion_for_all_sent_packets` posts the dummy send. -/
theorem trigger_after_zcopy_code_bug :
    (send_signaling true 0).1 = true ∧
      (send_signaling true 0).2 = 0 ∧
      is_signal_requested_for_last_wqe 3 (send_signaling true 0).2 = false ∧
      (trigger_completion_for_all_sent_packets 3 true (send_signaling true 0).2).1 = true := by
  decide

/-- **C9 counterexample.** After a first ready transition from init the QP is
in RTS — past init — yet a second invocation of `modify_qp_to_ready_state`
does re-apply the reset→init step: the code skips that step only when the
state is exactly init, so the claim's "a second invocation when already past
init does not repeat the reset→init step" is false. -/
theorem modify_qp_to_ready_state_counterexample :
    pastInit (modify_qp_to_ready_state ibv_qp_state.IBV_QPS_INIT).finalState = true ∧
      (modify_qp_to_ready_state
          (modify_qp_to_ready_state ibv_qp_state.IBV_QPS_INIT).finalState).toInitApplied =
        true := by
  decide

/-- **C9 amended.** `modify_qp_to_ready_state` skips the defensive
error/reset→init step exactly when the queried state is `IBV_QPS_INIT` — in
particular it repeats the step on a second invocation, which finds the QP past
init — and in every case it then applies the init→ready transition, ending in
the ready state. -/
theorem modify_qp_to_ready_state_amended (s : ibv_qp_state) :
    (modify_qp_to_ready_state s).toInitApplied = !(s == ibv_qp_state.IBV_QPS_INIT) ∧
      (modify_qp_to_ready_state s).finalState = ibv_qp_state.IBV_QPS_RTS := by
  cases s <;> decide

/-- **C10.** Whenever the hardware post succeeds, `send` returns 0 regardless
of the synchronous Tx completion poll's result — a negative poll result is
only logged — and the poll is attempted exactly when a completion was
requested for the submitted (zero-copy) or the last work request. -/
theorem send_returns_zero_on_post_success (zcopy sig : Bool) (pollRet : Int) :
    (qp_send true zcopy sig pollRet).retval = 0 ∧
      (qp_send true zcopy sig pollRet).pollAttempted = (zcopy || sig) ∧
      (pollRet < 0 → (zcopy || sig) = true →
        (qp_send true zcopy sig pollRet).loggedPollError = true) := by
  refine ⟨?_, ?_, ?_⟩ <;> cases zcopy <;> cases sig <;> simp [qp_send]

/-- Witness for `send_returns_zero_on_post_success`: a successful zero-copy
send whose poll returns -3 still returns 0, polled, with the error logged. -/
theorem send_returns_zero_on_post_success_witness :
    (qp_send true true false (-3)).retval = 0 ∧
      (qp_send true true false (-3)).pollAttempted = true ∧
      (qp_send true true false (-3)).loggedPollError = true := by
  have h := send_returns_zero_on_post_success true false (-3)
  exact ⟨h.1, h.2.1, h.2.2 (by decide) rfl⟩

/-- Helper: if the continue condition fails within the fuel, the drain loop of
`release_rx_buffers` exits at the first failing check, all earlier checks
having passed. -/
theorem drainExitAt_first (cq : Bool) (env : Nat → RxObs) (lp : Nat) :
    ∀ fuel k j, j < fuel → drainContinue cq env lp (k + j) = false →
      ∃ m, m ≤ j ∧ (∀ i, i < m → drainContinue cq env lp (k + i) = true) ∧
        drainExitAt cq env lp fuel k = some (k + m) := by
  intro fuel
  induction fuel with
  | zero => intro k j hj _; omega
  | succ fuel ih =>
    intro k j hj hfail
    by_cases hc : drainContinue cq env lp k = true
    · have hj0 : j ≠ 0 := by
        intro h0
        rw [h0, Nat.add_zero] at hfail
        rw [hc] at hfail
        exact Bool.noConfusion hfail
      obtain ⟨j', rfl⟩ : ∃ j', j = j' + 1 := ⟨j - 1, by omega⟩
      have hfail' : drainContinue cq env lp (k + 1 + j') = false := by
        have harith : k + 1 + j' = k + (j' + 1) := by omega
        rw [harith]
        exact hfail
      obtain ⟨m, hm, hpre, hexit⟩ := ih (k + 1) j' (by omega) hfail'
      refine ⟨m + 1, by omega, ?_, ?_⟩
      · intro i hi
        cases i with
        | zero => simpa using hc
        | succ i' =>
          have hp := hpre i' (by omega)
          have harith : k + 1 + i' = k + (i' + 1) := by omega
          rwa [harith] at hp
      · have harith : k + 1 + m = k + (m + 1) := by omega
        simp only [drainExitAt, hc, if_true]
        rw [← harith]
        exact hexit
    · have hc' : drainContinue cq env lp k = false := by
        simpa using hc
      refine ⟨0, by omega, by intro i hi; omega, ?_⟩
      simp only [drainExitAt, hc', Bool.false_eq_true, if_false, Nat.add_zero]

/-- **C5.** `release_rx_buffers` leaves its drain loop as soon as any exit
condition holds — observed completion id equal to `m_last_posted_rx_wr_id`,
device removed, receive queue empty, or global shutdown (also EIO or a
missing CQ) — stopping at the first check where the continue condition fails,
and in every such case (including a device-removed exit with the ids never
having matched) it returns with `m_last_posted_rx_wr_id` reset to zero. -/
theorem release_rx_buffers_drain (cq : Bool) (env : Nat → RxObs) (lp fuel j : Nat)
    (hj : j < fuel) (hexit : drainContinue cq env lp j = false) :
    ∃ m, m ≤ j ∧ (∀ i, i < m → drainContinue cq env lp i = true) ∧
      release_rx_buffers cq env lp fuel = some (m, 0) := by
  have hfail : drainContinue cq env lp (0 + j) = false := by
    rw [Nat.zero_add]
    exact hexit
  obtain ⟨m, hm, hpre, hdrain⟩ := drainExitAt_first cq env lp fuel 0 j hj hfail
  refine ⟨m, hm, ?_, ?_⟩
  · intro i hi
    have hp := hpre i hi
    rwa [Nat.zero_add] at hp
  · unfold release_rx_buffers
    rw [hdrain, Nat.zero_add]
    rfl

/-- Witness for `release_rx_buffers_drain`: the device-removed flag is set
from the start and the posted id 5 is never observed — the loop makes zero
passes and the function returns with the marker cleared to zero. -/
theorem release_rx_buffers_drain_witness :
    ∃ m, m ≤ 0 ∧
      (∀ i, i < m → drainContinue true (fun _ => RxObs.mk 1 true false false false) 5 i = true) ∧
      release_rx_buffers true (fun _ => RxObs.mk 1 true false false false) 5 3 = some (m, 0) :=
  release_rx_buffers_drain true (fun _ => RxObs.mk 1 true false false false) 5 3 0 (by decide)
    (by decide) 
